import Mathlib

/-!
Verification of the copy-kun mirror bot (src/copykun.py, src/database.py).

The Python source is shallowly embedded: strings are `String` or `List Char`,
timestamps are `Nat`, the peewee rows are Lean structures, each relevant
operation of the bot is a Lean function translated from the corresponding
Python lines.  External collaborators (the reddit API via praw, difflib)
enter as explicit parameters of the embedded functions.
-/

namespace CopyKun

/-! ## Edit-history region peeling

`CopyKun.check_edits` locates the editable region of the mirrored reply body
with `body.index("----\n") + 5` and `body.rindex("----")`, then peels one
trailing `"\n\n----"`-delimited segment per stored Edit row (lines 377-388),
and later reconstructs the body by appending each Edit's content prefixed by
`TEXT_DIVIDER = "\n\n----\n"` (lines 412-416). -/

/-- The pattern `"----\n"` searched by `rd_reply.body.index("----\n")`. -/
def pat5 : List Char := ['-', '-', '-', '-', '\n']

/-- The pattern `"----"` searched by `rd_reply.body.rindex("----")`. -/
def pat4 : List Char := ['-', '-', '-', '-']

/-- The pattern `"\n\n----"` searched by `old_body.rindex("\n\n----")`. -/
def pat6 : List Char := ['\n', '\n', '-', '-', '-', '-']

/-- `TEXT_DIVIDER = "\n\n----\n"` as a character list. -/
def div7 : List Char := ['\n', '\n', '-', '-', '-', '-', '\n']

/-- Python slice `l[a:b]` for nonnegative indices. -/
def pySlice (l : List Char) (a b : Nat) : List Char := (l.drop a).take (b - a)

/-- Index of the first occurrence of `pat` in a list, as computed by Python
`s.index(pat)` (`none` models the `ValueError`). -/
def ffind (pat : List Char) : List Char → Option Nat
  | [] => if pat.isPrefixOf ([] : List Char) then some 0 else none
  | c :: t => if pat.isPrefixOf (c :: t) then some 0 else (ffind pat t).map (· + 1)

/-- Helper scanning positions `i, i-1, ..., 0` for a prefix occurrence. -/
def rfindAux (pat s : List Char) : Nat → Option Nat
  | 0 => if pat.isPrefixOf s then some 0 else none
  | i + 1 => if pat.isPrefixOf (s.drop (i + 1)) then some (i + 1) else rfindAux pat s i

/-- Index of the last occurrence of `pat` in `s`, as computed by Python
`s.rindex(pat)` (`none` models the `ValueError`). -/
def rfind (pat s : List Char) : Option Nat := rfindAux pat s s.length

/-- The peeling loop of `check_edits` lines 381-388: strip one trailing
`"\n\n----"`-delimited segment per prior Edit row, stopping early when the
pattern is no longer found (the `except ValueError: break`). -/
def stripK : Nat → List Char → List Char
  | 0, s => s
  | k + 1, s =>
    match rfind pat6 s with
    | some i => stripK k (s.take i)
    | none => s

/-- Lines 377-388 of `check_edits`: locate the region strictly between the
first `"----\n"` and the last `"----"` of the reply body, then peel `k`
trailing divider-delimited segments.  `none` models the uncaught
`ValueError` when a divider is absent from the body. -/
def extractOldBody (body : List Char) (k : Nat) : Option (List Char) :=
  match ffind pat5 body, rfind pat4 body with
  | some s, some e => some (stripK k (pySlice body (s + 5) e))
  | _, _ => none

/-- Lines 413-415 of `check_edits`: append each stored Edit content prefixed
by the literal divider `"\n\n----\n"`. -/
def appendEdits : List (List Char) → List Char
  | [] => []
  | e :: es => div7 ++ e ++ appendEdits es

/-- A stored edit segment is clean when the peel pattern `"\n\n----"` occurs
nowhere in it, not even straddling the trailing `"\n"` of the divider that
precedes it.  Every edit annotation actually formatted by `check_edits`
(header `"Edited @ ..."`, each line starting with an escaped diff marker) is
clean. -/
def cleanSeg (e : List Char) : Prop := ¬ pat6 <:+: ('\n' :: e)

instance (e : List Char) : Decidable (cleanSeg e) :=
  instDecidableNot

/-! ### Find/rfind specifications -/

theorem ffind_eq_some {pat s : List Char} {j : Nat} (hpat : pat ≠ [])
    (hp : pat <+: s.drop j) (hmin : ∀ m, m < j → ¬ pat <+: s.drop m) :
    ffind pat s = some j := by
  induction j generalizing s with
  | zero =>
    match s with
    | [] =>
      simp only [List.drop_nil] at hp
      exact absurd (List.prefix_nil.mp hp) hpat
    | c :: t =>
      simp only [List.drop_zero] at hp
      simp [ffind, List.isPrefixOf_iff_prefix, hp]
  | succ n ih =>
    match s with
    | [] =>
      simp only [List.drop_nil] at hp
      exact absurd (List.prefix_nil.mp hp) hpat
    | c :: t =>
      have h0 : ¬ pat <+: (c :: t) := by
        have := hmin 0 (Nat.succ_pos n)
        simpa using this
      have ht : ffind pat t = some n := by
        apply ih
        · simpa using hp
        · intro m hm
          have := hmin (m + 1) (by omega)
          simpa using this
      simp [ffind, List.isPrefixOf_iff_prefix, h0, ht]

theorem rfindAux_eq_some {pat s : List Char} {i j : Nat} (hj : j ≤ i)
    (hp : pat <+: s.drop j) (hmax : ∀ m, j < m → ¬ pat <+: s.drop m) :
    rfindAux pat s i = some j := by
  induction i with
  | zero =>
    have hj0 : j = 0 := Nat.le_zero.mp hj
    subst hj0
    simp only [List.drop_zero] at hp
    simp [rfindAux, List.isPrefixOf_iff_prefix, hp]
  | succ n ih =>
    by_cases h : j = n + 1
    · subst h
      simp [rfindAux, List.isPrefixOf_iff_prefix, hp]
    · have hj' : j ≤ n := by omega
      have hnp : ¬ pat <+: s.drop (n + 1) := hmax _ (by omega)
      simp [rfindAux, List.isPrefixOf_iff_prefix, hnp, ih hj']

theorem rfind_eq_some {pat s : List Char} {j : Nat} (hj : j ≤ s.length)
    (hp : pat <+: s.drop j) (hmax : ∀ m, j < m → ¬ pat <+: s.drop m) :
    rfind pat s = some j :=
  rfindAux_eq_some hj hp hmax

/-! ### Occurrence-exclusion helpers -/

theorem prefix_within_drop {pat W R : List Char} {m : Nat}
    (hp : pat <+: (W ++ R).drop m) (hm : m + pat.length ≤ W.length) :
    pat <+: W.drop m := by
  have hmW : m ≤ W.length := by omega
  rw [List.drop_append_of_le_length hmW] at hp
  have hlen : pat.length ≤ (W.drop m).length := by
    rw [List.length_drop]
    omega
  rw [List.prefix_iff_eq_take] at hp ⊢
  rwa [List.take_append_of_le_length hlen] at hp

theorem infix_of_prefix_drop {pat l : List Char} {m : Nat} (h : pat <+: l.drop m) :
    pat <:+: l :=
  h.isInfix.trans (List.drop_suffix m l).isInfix

/-- No occurrence of the peel pattern starts strictly inside `div7 ++ e`
when the segment `e` is clean. -/
theorem no_pat6_in_div_tail {e : List Char} (hc : cleanSeg e) (r : Nat) :
    ¬ pat6 <+: (div7 ++ e).drop (r + 1) := by
  intro hp
  have hpat : pat6 = '\n' :: '\n' :: '-' :: '-' :: '-' :: '-' :: ([] : List Char) := rfl
  rcases Nat.lt_or_ge r 6 with hr | hr
  · interval_cases r
    · rw [hpat, show (div7 ++ e).drop 1 = '\n' :: '-' :: '-' :: '-' :: '-' :: '\n' :: e from rfl] at hp
      rcases List.cons_prefix_cons.mp hp with ⟨-, hp2⟩
      rcases List.cons_prefix_cons.mp hp2 with ⟨h, -⟩
      exact absurd h (by decide)
    · rw [hpat, show (div7 ++ e).drop 2 = '-' :: '-' :: '-' :: '-' :: '\n' :: e from rfl] at hp
      rcases List.cons_prefix_cons.mp hp with ⟨h, -⟩
      exact absurd h (by decide)
    · rw [hpat, show (div7 ++ e).drop 3 = '-' :: '-' :: '-' :: '\n' :: e from rfl] at hp
      rcases List.cons_prefix_cons.mp hp with ⟨h, -⟩
      exact absurd h (by decide)
    · rw [hpat, show (div7 ++ e).drop 4 = '-' :: '-' :: '\n' :: e from rfl] at hp
      rcases List.cons_prefix_cons.mp hp with ⟨h, -⟩
      exact absurd h (by decide)
    · rw [hpat, show (div7 ++ e).drop 5 = '-' :: '\n' :: e from rfl] at hp
      rcases List.cons_prefix_cons.mp hp with ⟨h, -⟩
      exact absurd h (by decide)
    · rw [show (div7 ++ e).drop 6 = '\n' :: e from rfl] at hp
      exact hc hp.isInfix
  · obtain ⟨k, rfl⟩ : ∃ k, r = k + 6 := ⟨r - 6, by omega⟩
    have hd : (div7 ++ e).drop (k + 6 + 1) = e.drop k := by
      have h7 : k + 6 + 1 = div7.length + k := by
        show k + 6 + 1 = 7 + k
        omega
      rw [h7, List.drop_append]
    rw [hd] at hp
    exact hc (List.infix_cons (infix_of_prefix_drop hp))

/-- The last occurrence of the peel pattern in `X ++ div7 ++ e` with a clean
final segment `e` is exactly at the final divider. -/
theorem rfind_append_div {X e : List Char} (hc : cleanSeg e) :
    rfind pat6 (X ++ div7 ++ e) = some X.length := by
  apply rfind_eq_some
  · simp only [List.length_append]
    omega
  · rw [List.append_assoc, List.drop_left]
    show pat6 <+: div7 ++ e
    rw [show div7 ++ e = pat6 ++ ('\n' :: e) from rfl]
    exact List.prefix_append _ _
  · intro m hm hp
    obtain ⟨r, rfl⟩ : ∃ r, m = X.length + (r + 1) := ⟨m - X.length - 1, by omega⟩
    rw [List.append_assoc, List.drop_append] at hp
    exact no_pat6_in_div_tail hc r hp

theorem appendEdits_append (es : List (List Char)) (e : List Char) :
    appendEdits (es ++ [e]) = appendEdits es ++ (div7 ++ e) := by
  induction es with
  | nil => simp [appendEdits]
  | cons f fs ih => simp [appendEdits, ih]

/-- One peel step removes exactly the last cleanly-appended segment. -/
theorem stripK_succ_div (k : Nat) (X e : List Char) (hc : cleanSeg e) :
    stripK (k + 1) (X ++ div7 ++ e) = stripK k X := by
  have hr := rfind_append_div (X := X) hc
  simp only [stripK, hr]
  congr 1
  rw [List.append_assoc, List.take_left]

/-- Peeling `es.length` times undoes appending the clean segments `es`. -/
theorem stripK_appendEdits (C : List Char) (es : List (List Char))
    (h : ∀ e ∈ es, cleanSeg e) :
    stripK es.length (C ++ appendEdits es) = C := by
  induction es using List.reverseRecOn with
  | nil => simp [appendEdits, stripK]
  | append_singleton es e ih =>
    have hce : cleanSeg e := h e (by simp)
    have hlen : (es ++ [e]).length = es.length + 1 := by simp
    rw [appendEdits_append, hlen]
    simp only [← List.append_assoc]
    rw [stripK_succ_div _ _ _ hce]
    exact ih fun x hx => h x (by simp [hx])

/-- C1: round-trip of the edit-history encoding.  A reply body reconstructed
by `check_edits` consists of a prefix `q` ending at the first `"----\n"`, the
original content region `c`, the stored edit segments each prefixed by the
literal divider `"\n\n----\n"`, and the footer starting at the last `"----"`.
Re-running the peel of lines 377-388 with `k = es.length` recovers `c`
bit-for-bit.  The hypotheses state that the segments are divider-delimited
(no stray occurrence of the peel pattern inside a segment), that the prefix
contains no earlier `"----\n"`, and that the footer contains no later
`"----"`: exactly the shape of bodies the bot itself produces. -/
theorem check_edits_roundtrip (q c f : List Char) (es : List (List Char))
    (hq : ¬ pat5 <:+: (q ++ pat4))
    (hf : ¬ pat4 <:+: (['-', '-', '-'] ++ f))
    (hes : ∀ e ∈ es, cleanSeg e) :
    extractOldBody (q ++ pat5 ++ c ++ appendEdits es ++ pat4 ++ f) es.length = some c := by
  have hffind :
      ffind pat5 (q ++ pat5 ++ c ++ appendEdits es ++ pat4 ++ f) = some q.length := by
    apply ffind_eq_some (by decide)
    · have hb : q ++ pat5 ++ c ++ appendEdits es ++ pat4 ++ f =
          q ++ (pat5 ++ (c ++ (appendEdits es ++ (pat4 ++ f)))) := by
        simp [List.append_assoc]
      rw [hb, List.drop_left]
      exact List.prefix_append _ _
    · intro m hm hp
      have hb : q ++ pat5 ++ c ++ appendEdits es ++ pat4 ++ f =
          (q ++ pat4) ++ ('\n' :: (c ++ (appendEdits es ++ (pat4 ++ f)))) := by
        simp [pat5, pat4, List.append_assoc]
      rw [hb] at hp
      have hle : m + pat5.length ≤ (q ++ pat4).length := by
        simp only [List.length_append]
        show m + 5 ≤ q.length + 4
        omega
      exact hq (infix_of_prefix_drop (prefix_within_drop hp hle))
  have hrfind :
      rfind pat4 (q ++ pat5 ++ c ++ appendEdits es ++ pat4 ++ f) =
        some (q ++ pat5 ++ c ++ appendEdits es).length := by
    have hb : q ++ pat5 ++ c ++ appendEdits es ++ pat4 ++ f =
        (q ++ pat5 ++ c ++ appendEdits es) ++ (pat4 ++ f) := by
      simp [List.append_assoc]
    apply rfind_eq_some
    · rw [hb]
      simp only [List.length_append]
      omega
    · rw [hb, List.drop_left]
      exact List.prefix_append _ _
    · intro m hm hp
      obtain ⟨r, rfl⟩ : ∃ r, m = (q ++ pat5 ++ c ++ appendEdits es).length + (r + 1) :=
        ⟨m - (q ++ pat5 ++ c ++ appendEdits es).length - 1, by omega⟩
      rw [hb, List.drop_append] at hp
      have hdr : (pat4 ++ f).drop (r + 1) = (['-', '-', '-'] ++ f).drop r := by
        rw [show pat4 ++ f = '-' :: (['-', '-', '-'] ++ f) from rfl, List.drop_succ_cons]
      rw [hdr] at hp
      exact hf (hp.isInfix.trans (List.drop_suffix _ _).isInfix)
  simp only [extractOldBody, hffind, hrfind]
  have hdrop : (q ++ pat5 ++ c ++ appendEdits es ++ pat4 ++ f).drop (q.length + 5) =
      (c ++ appendEdits es) ++ (pat4 ++ f) := by
    have hb : q ++ pat5 ++ c ++ appendEdits es ++ pat4 ++ f =
        (q ++ pat5) ++ ((c ++ appendEdits es) ++ (pat4 ++ f)) := by
      simp [List.append_assoc]
    have hlen1 : (q ++ pat5).length = q.length + 5 := by
      simp [pat5]
    rw [hb, List.drop_left' hlen1]
  have hlen2 : (q ++ pat5 ++ c ++ appendEdits es).length - (q.length + 5) =
      (c ++ appendEdits es).length := by
    simp only [List.length_append]
    show q.length + 5 + c.length + (appendEdits es).length - (q.length + 5) = _
    omega
  rw [pySlice, hdrop, hlen2, List.take_left, stripK_appendEdits c es hes]

/-- Witness for `check_edits_roundtrip`: one stored edit annotation appended
to a concrete body, peeled back to the original content region. -/
theorem check_edits_roundtrip_witness :
    extractOldBody ("tag\n".toList ++ pat5 ++ "> some content\n".toList ++
        appendEdits ["Edited @ 01/01/2020\n\nfoo\n\n".toList] ++ pat4 ++ "\nfooter".toList) 1 =
      some ("> some content\n".toList) :=
  check_edits_roundtrip _ _ _ _ (by decide) (by decide) (by decide)

/-! ## Per-pass processing cap

`check_edits` (lines 364-368, 456) counts processed items in the variable
`i`, returning when `i > 8` at the top of an iteration.  The inner peel loop
at line 382, `for i in range(db_post.edits.count())`, reuses the same
variable and clobbers the counter, and the `continue` statements at lines
372 and 400 skip the `i = i + 1` at line 456. -/

/-- Abstract outcome of one due item inside the `check_edits` loop, as far
as the loop counter is concerned.  `k` is the number of iterations the inner
peel loop `for i in range(db_post.edits.count())` executed for that item. -/
inductive ItemOutcome where
  | unresolvable : ItemOutcome
  | noChange : ItemOutcome
  | emptyDiff (k : Nat) : ItemOutcome
  | editOk (k : Nat) : ItemOutcome
  | editFail (k : Nat) : ItemOutcome
deriving DecidableEq, Repr

/-- Value of the Python variable `i` after the inner peel loop has run `k`
iterations starting from `i0`: an empty `range` leaves `i` untouched, and
otherwise the loop leaves `i` at its final index `k - 1`. -/
def afterPeelLoop (i0 k : Nat) : Nat := if k = 0 then i0 else k - 1

/-- The counting skeleton of the `check_edits` loop (lines 364-372, 382,
400, 456): how many due items get processed (state read, rechecked and
updated) in one invocation.  Unresolvable items are skipped by the
`continue` at line 372 before any state update; empty-diff items are
processed but the `continue` at line 400 bypasses the increment; the other
processed outcomes run the inner peel loop and then increment. -/
def runCheckEdits : Nat → List ItemOutcome → Nat
  | _, [] => 0
  | i, o :: rest =>
    if i > 8 then 0
    else
      match o with
      | .unresolvable => runCheckEdits i rest
      | .noChange => 1 + runCheckEdits (i + 1) rest
      | .emptyDiff k => 1 + runCheckEdits (afterPeelLoop i k) rest
      | .editOk k => 1 + runCheckEdits (afterPeelLoop i k + 1) rest
      | .editFail k => 1 + runCheckEdits (afterPeelLoop i k + 1) rest

/-- C2 counterexample: ten due items that all take the not-edited branch.
The guard `if i > 8: return` only fires once the counter has reached 9, so
nine items are processed in a single invocation, exceeding the claimed cap
of 8. -/
theorem check_edits_cap_counterexample :
    runCheckEdits 0 (List.replicate 10 ItemOutcome.noChange) = 9 ∧ ¬ (9 ≤ 8) := by
  constructor
  · rfl
  · decide

/-- An item outcome that leaves the counter logic intact: it is either
skipped before reaching the inner peel loop, or it runs zero peel-loop
iterations and does not bypass the increment. -/
def countsCleanly : ItemOutcome → Prop
  | .unresolvable => True
  | .noChange => True
  | .emptyDiff _ => False
  | .editOk k => k = 0
  | .editFail k => k = 0

instance : DecidablePred countsCleanly := fun o =>
  match o with
  | .unresolvable => .isTrue trivial
  | .noChange => .isTrue trivial
  | .emptyDiff _ => .isFalse fun h => h
  | .editOk k => inferInstanceAs (Decidable (k = 0))
  | .editFail k => inferInstanceAs (Decidable (k = 0))

theorem runCheckEdits_le (items : List ItemOutcome) :
    ∀ i : Nat, (∀ o ∈ items, countsCleanly o) → runCheckEdits i items ≤ 9 - i := by
  induction items with
  | nil =>
    intro i h
    simp [runCheckEdits]
  | cons o rest ih =>
    intro i h
    have ho : countsCleanly o := h o (by simp)
    have hrest : ∀ x ∈ rest, countsCleanly x := fun x hx => h x (by simp [hx])
    by_cases hi : i > 8
    · cases o <;> simp [runCheckEdits, hi]
    · cases o with
      | unresolvable =>
        have := ih i hrest
        simp only [runCheckEdits, if_neg hi]
        omega
      | noChange =>
        have := ih (i + 1) hrest
        simp only [runCheckEdits, if_neg hi]
        omega
      | emptyDiff k => exact False.elim ho
      | editOk k =>
        have hk : k = 0 := ho
        subst hk
        have heq : afterPeelLoop i 0 = i := rfl
        have := ih (i + 1) hrest
        simp only [runCheckEdits, if_neg hi, heq]
        omega
      | editFail k =>
        have hk : k = 0 := ho
        subst hk
        have heq : afterPeelLoop i 0 = i := rfl
        have := ih (i + 1) hrest
        simp only [runCheckEdits, if_neg hi, heq]
        omega

/-- C2 amended: one invocation of `check_edits` processes at most 9 due
items (not 8), and only under the proviso that every due item leaves the
counter logic intact, i.e. no processed item takes the empty-diff path and
none runs any iteration of the inner peel loop (no prior EditEntries);
otherwise the counter is bypassed or clobbered and no fixed cap holds. -/
theorem check_edits_cap_amended (items : List ItemOutcome)
    (h : ∀ o ∈ items, countsCleanly o) :
    runCheckEdits 0 items ≤ 9 := by
  simpa using runCheckEdits_le items 0 h

/-- Witness for `check_edits_cap_amended` on twelve due no-change items. -/
theorem check_edits_cap_amended_witness :
    runCheckEdits 0 (List.replicate 12 ItemOutcome.noChange) ≤ 9 :=
  check_edits_cap_amended _ (by decide)

/-! ## One edit-reconciliation step over a tracked item

State model of `check_edits` lines 369-456 for a single due item, with the
external collaborators (reddit via praw, `difflib.unified_diff`, the clock,
the database transaction outcome) as explicit inputs. -/

/-- The `Content` row fields read and written by `check_edits`
(src/database.py lines 42-48). -/
structure ContentRec where
  edited : Option Nat
  lastChecked : Nat
  updateInterval : Nat
deriving DecidableEq, Repr

/-- A stored `Edit` row (src/database.py lines 61-64). -/
structure EditRec where
  content : String
  editTime : Nat
deriving DecidableEq, Repr

/-- The per-item database state touched by one `check_edits` iteration: the
`Content` row, the `Reply.latest_content` baseline, and the ordered `Edit`
rows. -/
structure ItemState where
  content : ContentRec
  latestContent : String
  edits : List EditRec
deriving DecidableEq, Repr

/-- External inputs to one `check_edits` iteration: the clock value
`time.time()`, the resolved source node (`none` when
`get_correct_reddit_object` returned no node) carrying its `edited`
attribute (`none` models the praw value `False`), the live reply body
(`none` when the reply permalink did not resolve, which would crash the
attribute access at line 377), the fresh rendering from `get_post_text`,
the `strftime` date string, and whether the remote edit call and the
database save succeed. -/
structure PassInput where
  now : Nat
  rdEdited : Option (Option Nat)
  replyBody : Option String
  freshContent : String
  editedAtStr : String
  editOk : Bool
  saveOk : Bool
deriving DecidableEq, Repr

/-- Result classification of one iteration.  `crashed` marks control paths
where an uncaught Python exception aborts the whole pass with the database
untouched. -/
inductive StepAction where
  | skip | noop | updated | failed | crashed
deriving DecidableEq, Repr

structure StepResult where
  state : ItemState
  action : StepAction
  remoteEditCalled : Bool
  appendedEdit : Option EditRec
  submittedText : Option String
deriving DecidableEq, Repr

/-- A character matched by the class `[\+|\-| ]` of the regex at line 403
(the `|` is literal inside a character class). -/
def isMarkerChar (c : Char) : Bool := c == '+' || c == '|' || c == '-' || c == ' '

/-- Position of the leftmost character matching the class, where
`re.search` anchors its match. -/
def findMarkerIdx : List Char → Option Nat
  | [] => none
  | c :: t => if isMarkerChar c then some 0 else (findMarkerIdx t).map (· + 1)

/-- Number of `'>'` characters matched greedily by the `>*` of the regex. -/
def countGt : List Char → Nat
  | [] => 0
  | c :: t => if c == '>' then countGt t + 1 else 0

/-- Python `str.strip()` default whitespace. -/
def isPyWhitespace (c : Char) : Bool :=
  c == ' ' || c == '\t' || c == '\n' || c == '\r' || c == '\x0b' || c == '\x0c'

/-- Lines 402-409 of `check_edits`, acting on one line of the unified diff:
the line is dropped (`none`) when the text after the marker run is blank,
kept verbatim when the regex finds no marker character anywhere, and
otherwise respliced as `line[1:idx] + escape + line[0] + " " + line[idx:]`
with `idx = len(match.group(1))` and the `+`/`-` marker escaped by a
backslash. -/
def transformLine (line : List Char) : Option (List Char) :=
  match findMarkerIdx line with
  | none => some line
  | some p =>
    if (line.drop (1 + countGt (line.drop (p + 1)))).all isPyWhitespace then none
    else
      some (pySlice line 1 (1 + countGt (line.drop (p + 1))) ++
        (if line.take 1 = ['-'] ∨ line.take 1 = ['+'] then ['\\'] else []) ++
        line.take 1 ++ [' '] ++ line.drop (1 + countGt (line.drop (p + 1))))

/-- Lines 393 and 401-410: the formatted edit annotation, a dated header
followed by the surviving transformed diff lines, each terminated by a
blank line.  The first three lines of the unified diff (its header) are
dropped. -/
def formatEditContent (editedAtStr : String) (diff : List String) : String :=
  "Edited @ " ++ editedAtStr ++ "\n\n" ++
    String.join ((diff.drop 3).filterMap fun l =>
      (transformLine l.toList).map fun cs => String.mk cs ++ "\n\n")

/-- Python `s.split("\n")`: split at every newline, keeping empty pieces
(so the empty string yields one empty piece). -/
def pySplitNl : List Char → List (List Char)
  | [] => [[]]
  | c :: t =>
    if c = '\n' then [] :: pySplitNl t
    else
      match pySplitNl t with
      | [] => [[c]]
      | h :: r => (c :: h) :: r

/-- The line list handed to `difflib.unified_diff` at line 392:
`some_string.split("\n")`. -/
def linesOf (s : String) : List String := (pySplitNl s.toList).map String.mk

/-- One iteration of the `check_edits` loop body (lines 369-456) over one
due item.  `udiff` stands for `difflib.unified_diff` applied to the two
line lists.  The branches follow the source: skip when the source permalink
does not resolve (line 371); the not-edited branch (lines 446-456) where a
failed save is caught and logged; the edited branch, which first locates and
peels the reply body (lines 377-388, crashing if a divider is missing),
then either takes the empty-diff path (lines 395-400, whose save is not
guarded by a try), or submits the rebuilt body (lines 412-442): on success
all three rows are saved in one transaction, on an APIException the backoff
row is saved, and an OperationalError from the transaction at line 434 is
caught while one from line 441 would propagate. -/
def checkEditsItem (udiff : List String → List String → List String)
    (inp : PassInput) (st : ItemState) : StepResult :=
  match inp.rdEdited with
  | none => ⟨st, .skip, false, none, none⟩
  | some rdE =>
    match rdE with
    | some t =>
      if st.content.lastChecked < t then
        match inp.replyBody with
        | none => ⟨st, .crashed, false, none, none⟩
        | some body =>
          match ffind pat5 body.toList, rfind pat4 body.toList with
          | some s, some e =>
            if (udiff (linesOf st.latestContent) (linesOf inp.freshContent)).isEmpty then
              if inp.saveOk then
                ⟨⟨⟨some t, inp.now, min (st.content.updateInterval * 2) 16384⟩,
                  st.latestContent, st.edits⟩, .noop, false, none, none⟩
              else ⟨st, .crashed, false, none, none⟩
            else
              if inp.editOk then
                if inp.saveOk then
                  ⟨⟨⟨some t, inp.now, 60⟩, inp.freshContent,
                      st.edits ++ [⟨formatEditContent inp.editedAtStr
                        (udiff (linesOf st.latestContent)
                          (linesOf inp.freshContent)), t⟩]⟩,
                    .updated, true,
                    some ⟨formatEditContent inp.editedAtStr
                      (udiff (linesOf st.latestContent)
                        (linesOf inp.freshContent)), t⟩,
                    some (String.mk (body.toList.take (s + 5)) ++
                      String.mk (stripK st.edits.length (pySlice body.toList (s + 5) e)) ++
                      String.join (st.edits.map fun ed => "\n\n----\n" ++ ed.content) ++
                      "\n\n----\n" ++ formatEditContent inp.editedAtStr
                        (udiff (linesOf st.latestContent)
                          (linesOf inp.freshContent)) ++
                      String.mk (body.toList.drop e))⟩
                else
                  ⟨st, .failed, true, none,
                    some (String.mk (body.toList.take (s + 5)) ++
                      String.mk (stripK st.edits.length (pySlice body.toList (s + 5) e)) ++
                      String.join (st.edits.map fun ed => "\n\n----\n" ++ ed.content) ++
                      "\n\n----\n" ++ formatEditContent inp.editedAtStr
                        (udiff (linesOf st.latestContent)
                          (linesOf inp.freshContent)) ++
                      String.mk (body.toList.drop e))⟩
              else
                if inp.saveOk then
                  ⟨⟨⟨some t, inp.now, min (st.content.updateInterval * 2) (16384 * 2)⟩,
                      st.latestContent, st.edits⟩, .failed, true, none,
                    some (String.mk (body.toList.take (s + 5)) ++
                      String.mk (stripK st.edits.length (pySlice body.toList (s + 5) e)) ++
                      String.join (st.edits.map fun ed => "\n\n----\n" ++ ed.content) ++
                      "\n\n----\n" ++ formatEditContent inp.editedAtStr
                        (udiff (linesOf st.latestContent)
                          (linesOf inp.freshContent)) ++
                      String.mk (body.toList.drop e))⟩
                else ⟨st, .crashed, true, none, none⟩
          | _, _ => ⟨st, .crashed, false, none, none⟩
      else
        if inp.saveOk then
          ⟨⟨⟨some t, inp.now, min (st.content.updateInterval * 2) (16384 * 2)⟩,
            st.latestContent, st.edits⟩, .noop, false, none, none⟩
        else ⟨st, .noop, false, none, none⟩
    | none =>
      if inp.saveOk then
        ⟨⟨⟨none, inp.now, min (st.content.updateInterval * 2) (16384 * 2)⟩,
          st.latestContent, st.edits⟩, .noop, false, none, none⟩
      else ⟨st, .noop, false, none, none⟩

/-- C3 counterexample: a no-change pass over an item whose interval already
reached 16384 doubles it to 32768 — the not-edited branch at line 450 caps
at `16384 * 2`, not at the claimed 16384 seconds. -/
theorem check_edits_nochange_cap_counterexample :
    (checkEditsItem (fun _ _ => []) ⟨200, some none, none, "", "", false, true⟩
        ⟨⟨none, 100, 16384⟩, "x", []⟩).state.content.updateInterval = 32768 ∧
      ¬ (32768 ≤ 16384) := by
  constructor
  · rfl
  · decide

/-- C3 amended: when the resolved source node reports no edit timestamp
newer than the stored `last_checked`, the pass refreshes `last_checked` and
`edited`, doubles `update_interval` with a cap of 32768 seconds (the code
uses `min(update_interval * 2, 16384 * 2)`), persists the record, appends no
EditEntry, makes no remote edit call, and classifies as a no-op. -/
theorem check_edits_nochange_branch (udiff : List String → List String → List String)
    (inp : PassInput) (st : ItemState) (e : Option Nat)
    (hres : inp.rdEdited = some e)
    (hstale : ∀ t, e = some t → ¬ st.content.lastChecked < t)
    (hsave : inp.saveOk = true) :
    (checkEditsItem udiff inp st).state.content.lastChecked = inp.now ∧
    (checkEditsItem udiff inp st).state.content.edited = e ∧
    (checkEditsItem udiff inp st).state.content.updateInterval =
      min (st.content.updateInterval * 2) 32768 ∧
    (checkEditsItem udiff inp st).state.latestContent = st.latestContent ∧
    (checkEditsItem udiff inp st).state.edits = st.edits ∧
    (checkEditsItem udiff inp st).appendedEdit = none ∧
    (checkEditsItem udiff inp st).remoteEditCalled = false ∧
    (checkEditsItem udiff inp st).action = StepAction.noop := by
  rcases e with _ | t
  · simp [checkEditsItem, hres, hsave]
  · have hnt : ¬ st.content.lastChecked < t := hstale t rfl
    simp [checkEditsItem, hres, hsave, hnt]

/-- Witness for `check_edits_nochange_branch` at a concrete stale item. -/
theorem check_edits_nochange_branch_witness :
    (checkEditsItem (fun _ _ => []) ⟨50, some (some 10), none, "", "", false, true⟩
        ⟨⟨none, 30, 60⟩, "y", []⟩).state.content.lastChecked = 50 ∧
    (checkEditsItem (fun _ _ => []) ⟨50, some (some 10), none, "", "", false, true⟩
        ⟨⟨none, 30, 60⟩, "y", []⟩).state.content.edited = some 10 ∧
    (checkEditsItem (fun _ _ => []) ⟨50, some (some 10), none, "", "", false, true⟩
        ⟨⟨none, 30, 60⟩, "y", []⟩).state.content.updateInterval = min (60 * 2) 32768 ∧
    (checkEditsItem (fun _ _ => []) ⟨50, some (some 10), none, "", "", false, true⟩
        ⟨⟨none, 30, 60⟩, "y", []⟩).state.latestContent = "y" ∧
    (checkEditsItem (fun _ _ => []) ⟨50, some (some 10), none, "", "", false, true⟩
        ⟨⟨none, 30, 60⟩, "y", []⟩).state.edits = [] ∧
    (checkEditsItem (fun _ _ => []) ⟨50, some (some 10), none, "", "", false, true⟩
        ⟨⟨none, 30, 60⟩, "y", []⟩).appendedEdit = none ∧
    (checkEditsItem (fun _ _ => []) ⟨50, some (some 10), none, "", "", false, true⟩
        ⟨⟨none, 30, 60⟩, "y", []⟩).remoteEditCalled = false ∧
    (checkEditsItem (fun _ _ => []) ⟨50, some (some 10), none, "", "", false, true⟩
        ⟨⟨none, 30, 60⟩, "y", []⟩).action = StepAction.noop :=
  check_edits_nochange_branch _ _ _ _ rfl
    (by
      intro t ht
      injection ht with h
      subst h
      decide) rfl

/-! ## Multi-pass scheduler invariants -/

/-- The sequence of database states of one tracked item across repeated
`check_edits` passes, including the initial state. -/
def passTrace (udiff : List String → List String → List String) :
    ItemState → List PassInput → List ItemState
  | st, [] => [st]
  | st, p :: ps => st :: passTrace udiff (checkEditsItem udiff p st).state ps

/-- Every branch of one pass keeps `update_interval` inside `[60, 32768]`. -/
theorem checkEditsItem_interval_bounds (udiff : List String → List String → List String)
    (inp : PassInput) (st : ItemState)
    (h60 : 60 ≤ st.content.updateInterval) (hcap : st.content.updateInterval ≤ 32768) :
    60 ≤ (checkEditsItem udiff inp st).state.content.updateInterval ∧
      (checkEditsItem udiff inp st).state.content.updateInterval ≤ 32768 := by
  unfold checkEditsItem
  repeat' split
  all_goals dsimp only
  all_goals omega

/-- Every branch of one pass either keeps `last_checked` or sets it to the
current clock value. -/
theorem checkEditsItem_lastChecked_mono (udiff : List String → List String → List String)
    (inp : PassInput) (st : ItemState) (h : st.content.lastChecked ≤ inp.now) :
    st.content.lastChecked ≤ (checkEditsItem udiff inp st).state.content.lastChecked ∧
      (checkEditsItem udiff inp st).state.content.lastChecked ≤ inp.now := by
  unfold checkEditsItem
  repeat' split
  all_goals dsimp only
  all_goals omega

theorem passTrace_invariant (udiff : List String → List String → List String)
    (ps : List PassInput) :
    ∀ st0 : ItemState, 60 ≤ st0.content.updateInterval →
      st0.content.updateInterval ≤ 32768 →
      List.Chain (fun a b => a ≤ b) st0.content.lastChecked (ps.map PassInput.now) →
      (∀ s ∈ passTrace udiff st0 ps,
          60 ≤ s.content.updateInterval ∧ s.content.updateInterval ≤ 32768) ∧
        List.Chain' (fun a b => a ≤ b)
          ((passTrace udiff st0 ps).map fun s => s.content.lastChecked) := by
  induction ps with
  | nil =>
    intro st0 h60 hcap hchain
    constructor
    · intro s hs
      simp only [passTrace, List.mem_singleton] at hs
      subst hs
      exact ⟨h60, hcap⟩
    · simp [passTrace]
  | cons p rest ih =>
    intro st0 h60 hcap hchain
    simp only [List.map_cons, List.chain_cons] at hchain
    obtain ⟨hnow, hchain2⟩ := hchain
    obtain ⟨h60', hcap'⟩ := checkEditsItem_interval_bounds udiff p st0 h60 hcap
    obtain ⟨hmono, hle⟩ := checkEditsItem_lastChecked_mono udiff p st0 hnow
    have hchain1 : List.Chain (fun a b => a ≤ b)
        (checkEditsItem udiff p st0).state.content.lastChecked
        (rest.map PassInput.now) := by
      rcases h2 : rest.map PassInput.now with _ | ⟨n, ns⟩
      · exact List.Chain.nil
      · rw [h2] at hchain2
        rcases List.chain_cons.mp hchain2 with ⟨hpn, hns⟩
        exact List.chain_cons.mpr ⟨le_trans hle hpn, hns⟩
    obtain ⟨hball, hchain3⟩ := ih _ h60' hcap' hchain1
    constructor
    · intro s hs
      simp only [passTrace, List.mem_cons] at hs
      rcases hs with rfl | hs
      · exact ⟨h60, hcap⟩
      · exact hball s hs
    · simp only [passTrace, List.map_cons]
      apply List.Chain'.cons'
      · exact hchain3
      · intro b hb
        have hhead : ((passTrace udiff (checkEditsItem udiff p st0).state rest).map
            fun s => s.content.lastChecked).head? =
              some (checkEditsItem udiff p st0).state.content.lastChecked := by
          cases rest <;> simp [passTrace]
        rw [hhead] at hb
        cases hb
        exact hmono

/-- C4: starting from the `MirrorRecord` as `copy_post` creates it
(`update_interval = 60`), any sequence of `check_edits` passes with a
non-decreasing clock keeps `update_interval` within `[60, 32768]` at every
point of the trace and never decreases `last_checked`. -/
theorem update_interval_bounded_lastChecked_mono
    (udiff : List String → List String → List String)
    (st0 : ItemState) (ps : List PassInput)
    (hinit : st0.content.updateInterval = 60)
    (hchain : List.Chain (fun a b => a ≤ b) st0.content.lastChecked
      (ps.map PassInput.now)) :
    (∀ s ∈ passTrace udiff st0 ps,
        60 ≤ s.content.updateInterval ∧ s.content.updateInterval ≤ 32768) ∧
      List.Chain' (fun a b => a ≤ b)
        ((passTrace udiff st0 ps).map fun s => s.content.lastChecked) :=
  passTrace_invariant udiff ps st0 (by omega) (by omega) hchain

/-- Witness for `update_interval_bounded_lastChecked_mono`: a freshly
copied item going through a no-change pass and then a skipped pass. -/
theorem update_interval_bounded_witness :
    (∀ s ∈ passTrace (fun _ _ => []) ⟨⟨none, 5, 60⟩, "c", []⟩
        [⟨9, some none, none, "", "", false, true⟩,
         ⟨12, none, none, "", "", true, true⟩],
        60 ≤ s.content.updateInterval ∧ s.content.updateInterval ≤ 32768) ∧
      List.Chain' (fun a b => a ≤ b)
        ((passTrace (fun _ _ => []) ⟨⟨none, 5, 60⟩, "c", []⟩
          [⟨9, some none, none, "", "", false, true⟩,
           ⟨12, none, none, "", "", true, true⟩]).map
          fun s => s.content.lastChecked) :=
  update_interval_bounded_lastChecked_mono _ _ _ rfl
    (List.Chain.cons (by decide) (List.Chain.cons (by decide) List.Chain.nil))

/-- C8 counterexample: an item whose interval reached 32768 (admissible per
the bot's own bound) hits a timestamp change with an empty diff; line 398
sets `update_interval` to `min(32768 * 2, 16384) = 16384`, so the interval
shrinks — "update_interval only grows" fails. -/
theorem check_edits_emptydiff_shrink_counterexample :
    (checkEditsItem (fun _ _ => [])
          ⟨100, some (some 50), some "a\n\n----\nb\n\n----\nc", "same", "d", false, true⟩
          ⟨⟨some 5, 10, 32768⟩, "same", []⟩).state.content.updateInterval = 16384 ∧
      ¬ (32768 ≤ 16384) := by
  constructor
  · rfl
  · decide

/-- C8 amended: when the source's edit timestamp changed but the line diff
between the stored and fresh renderings is empty, the pass appends no
EditEntry, leaves `Reply.latest_content` unchanged, makes no remote edit
call, and sets `update_interval` to `min(update_interval * 2, 16384)` —
which never decreases the interval provided it was at most 16384, but
shrinks it when backoff had already pushed it above 16384. -/
theorem check_edits_emptydiff_branch (udiff : List String → List String → List String)
    (inp : PassInput) (st : ItemState) (t : Nat) (b : String) (s0 e0 : Nat)
    (hres : inp.rdEdited = some (some t))
    (ht : st.content.lastChecked < t)
    (hbody : inp.replyBody = some b)
    (hff : ffind pat5 b.toList = some s0)
    (hrf : rfind pat4 b.toList = some e0)
    (hdiff : udiff (linesOf st.latestContent) (linesOf inp.freshContent) = [])
    (hsave : inp.saveOk = true) :
    (checkEditsItem udiff inp st).state.latestContent = st.latestContent ∧
    (checkEditsItem udiff inp st).state.edits = st.edits ∧
    (checkEditsItem udiff inp st).appendedEdit = none ∧
    (checkEditsItem udiff inp st).remoteEditCalled = false ∧
    (checkEditsItem udiff inp st).state.content.lastChecked = inp.now ∧
    (checkEditsItem udiff inp st).state.content.edited = some t ∧
    (checkEditsItem udiff inp st).state.content.updateInterval =
      min (st.content.updateInterval * 2) 16384 ∧
    (st.content.updateInterval ≤ 16384 →
      st.content.updateInterval ≤ (checkEditsItem udiff inp st).state.content.updateInterval) ∧
    (checkEditsItem udiff inp st).action = StepAction.noop := by
  have hkey : checkEditsItem udiff inp st =
      ⟨⟨⟨some t, inp.now, min (st.content.updateInterval * 2) 16384⟩,
        st.latestContent, st.edits⟩, .noop, false, none, none⟩ := by
    simp only [checkEditsItem, hres, hbody, hff, hrf, hdiff, hsave, if_pos ht,
      List.isEmpty_nil, if_true]
  rw [hkey]
  refine ⟨rfl, rfl, rfl, rfl, rfl, rfl, rfl, ?_, rfl⟩
  intro h
  dsimp only
  omega

/-- Witness for `check_edits_emptydiff_branch` at a concrete item. -/
theorem check_edits_emptydiff_branch_witness :
    (checkEditsItem (fun _ _ => [])
          ⟨100, some (some 50), some "a\n\n----\nb\n\n----\nc", "same", "d", false, true⟩
          ⟨⟨some 5, 10, 60⟩, "same", []⟩).state.latestContent = "same" ∧
    (checkEditsItem (fun _ _ => [])
          ⟨100, some (some 50), some "a\n\n----\nb\n\n----\nc", "same", "d", false, true⟩
          ⟨⟨some 5, 10, 60⟩, "same", []⟩).state.edits = [] ∧
    (checkEditsItem (fun _ _ => [])
          ⟨100, some (some 50), some "a\n\n----\nb\n\n----\nc", "same", "d", false, true⟩
          ⟨⟨some 5, 10, 60⟩, "same", []⟩).appendedEdit = none ∧
    (checkEditsItem (fun _ _ => [])
          ⟨100, some (some 50), some "a\n\n----\nb\n\n----\nc", "same", "d", false, true⟩
          ⟨⟨some 5, 10, 60⟩, "same", []⟩).remoteEditCalled = false ∧
    (checkEditsItem (fun _ _ => [])
          ⟨100, some (some 50), some "a\n\n----\nb\n\n----\nc", "same", "d", false, true⟩
          ⟨⟨some 5, 10, 60⟩, "same", []⟩).state.content.lastChecked = 100 ∧
    (checkEditsItem (fun _ _ => [])
          ⟨100, some (some 50), some "a\n\n----\nb\n\n----\nc", "same", "d", false, true⟩
          ⟨⟨some 5, 10, 60⟩, "same", []⟩).state.content.edited = some 50 ∧
    (checkEditsItem (fun _ _ => [])
          ⟨100, some (some 50), some "a\n\n----\nb\n\n----\nc", "same", "d", false, true⟩
          ⟨⟨some 5, 10, 60⟩, "same", []⟩).state.content.updateInterval = min (60 * 2) 16384 ∧
    (60 ≤ 16384 →
      60 ≤ (checkEditsItem (fun _ _ => [])
          ⟨100, some (some 50), some "a\n\n----\nb\n\n----\nc", "same", "d", false, true⟩
          ⟨⟨some 5, 10, 60⟩, "same", []⟩).state.content.updateInterval) ∧
    (checkEditsItem (fun _ _ => [])
          ⟨100, some (some 50), some "a\n\n----\nb\n\n----\nc", "same", "d", false, true⟩
          ⟨⟨some 5, 10, 60⟩, "same", []⟩).action = StepAction.noop :=
  check_edits_emptydiff_branch (fun _ _ => [])
    ⟨100, some (some 50), some "a\n\n----\nb\n\n----\nc", "same", "d", false, true⟩
    ⟨⟨some 5, 10, 60⟩, "same", []⟩ 50 "a\n\n----\nb\n\n----\nc" 3 11
    rfl (by decide) rfl (by decide) (by decide) rfl rfl

/-- The pass only consults the diff function on the stored and fresh line
lists, so two diff functions agreeing there give identical passes. -/
theorem checkEditsItem_udiff_congr (u1 u2 : List String → List String → List String)
    (inp : PassInput) (st : ItemState)
    (h : u1 (linesOf st.latestContent) (linesOf inp.freshContent) =
      u2 (linesOf st.latestContent) (linesOf inp.freshContent)) :
    checkEditsItem u1 inp st = checkEditsItem u2 inp st := by
  unfold checkEditsItem
  rw [h]

/-- C7: with stored rendering `"line1\nline2"` and fresh rendering
`"line1\nline2changed"`, and difflib returning the standard unified diff for
those line lists, the pass appends a non-empty formatted diff block
containing the escaped pair `"\- line2"` / `"\+ line2changed"` (markers
escaped with a backslash so reddit does not render them as list bullets),
and after the successful edit submission `update_interval` is reset to 60. -/
theorem check_edits_concrete_scenario (udiff : List String → List String → List String)
    (hdiff : udiff ["line1", "line2"] ["line1", "line2changed"] =
      ["--- \n", "+++ \n", "@@ -1,2 +1,2 @@\n", " line1", "-line2", "+line2changed"]) :
    (checkEditsItem udiff
        ⟨100, some (some 50), some "tg\n\n----\nT\n\nline1\nline2\n\n----\nft",
          "line1\nline2changed", "02/03/2016 10:00:00", true, true⟩
        ⟨⟨some 5, 10, 240⟩, "line1\nline2", []⟩).appendedEdit =
      some ⟨"Edited @ 02/03/2016 10:00:00\n\n  line1\n\n\\- line2\n\n\\+ line2changed\n\n",
        50⟩ ∧
    "\\- line2".toList <:+:
      "Edited @ 02/03/2016 10:00:00\n\n  line1\n\n\\- line2\n\n\\+ line2changed\n\n".toList ∧
    "\\+ line2changed".toList <:+:
      "Edited @ 02/03/2016 10:00:00\n\n  line1\n\n\\- line2\n\n\\+ line2changed\n\n".toList ∧
    "Edited @ 02/03/2016 10:00:00\n\n  line1\n\n\\- line2\n\n\\+ line2changed\n\n" ≠ "" ∧
    (checkEditsItem udiff
        ⟨100, some (some 50), some "tg\n\n----\nT\n\nline1\nline2\n\n----\nft",
          "line1\nline2changed", "02/03/2016 10:00:00", true, true⟩
        ⟨⟨some 5, 10, 240⟩, "line1\nline2", []⟩).state.content.updateInterval = 60 ∧
    (checkEditsItem udiff
        ⟨100, some (some 50), some "tg\n\n----\nT\n\nline1\nline2\n\n----\nft",
          "line1\nline2changed", "02/03/2016 10:00:00", true, true⟩
        ⟨⟨some 5, 10, 240⟩, "line1\nline2", []⟩).action = StepAction.updated := by
  have hu : udiff (linesOf "line1\nline2") (linesOf "line1\nline2changed") =
      (fun _ _ => ["--- \n", "+++ \n", "@@ -1,2 +1,2 @@\n", " line1", "-line2",
        "+line2changed"])
        (linesOf "line1\nline2") (linesOf "line1\nline2changed") := by
    have h1 : linesOf "line1\nline2" = ["line1", "line2"] := rfl
    have h2 : linesOf "line1\nline2changed" = ["line1", "line2changed"] := rfl
    rw [h1, h2]
    exact hdiff
  rw [checkEditsItem_udiff_congr udiff
    (fun _ _ => ["--- \n", "+++ \n", "@@ -1,2 +1,2 @@\n", " line1", "-line2",
      "+line2changed"])
    ⟨100, some (some 50), some "tg\n\n----\nT\n\nline1\nline2\n\n----\nft",
      "line1\nline2changed", "02/03/2016 10:00:00", true, true⟩
    ⟨⟨some 5, 10, 240⟩, "line1\nline2", []⟩ hu]
  decide

/-- Witness for `check_edits_concrete_scenario`, instantiating the diff
function with the unified diff of the two concrete renderings. -/
theorem check_edits_concrete_scenario_witness :
    (checkEditsItem
        (fun _ _ => ["--- \n", "+++ \n", "@@ -1,2 +1,2 @@\n", " line1", "-line2",
          "+line2changed"])
        ⟨100, some (some 50), some "tg\n\n----\nT\n\nline1\nline2\n\n----\nft",
          "line1\nline2changed", "02/03/2016 10:00:00", true, true⟩
        ⟨⟨some 5, 10, 240⟩, "line1\nline2", []⟩).appendedEdit =
      some ⟨"Edited @ 02/03/2016 10:00:00\n\n  line1\n\n\\- line2\n\n\\+ line2changed\n\n",
        50⟩ ∧
    "\\- line2".toList <:+:
      "Edited @ 02/03/2016 10:00:00\n\n  line1\n\n\\- line2\n\n\\+ line2changed\n\n".toList ∧
    "\\+ line2changed".toList <:+:
      "Edited @ 02/03/2016 10:00:00\n\n  line1\n\n\\- line2\n\n\\+ line2changed\n\n".toList ∧
    "Edited @ 02/03/2016 10:00:00\n\n  line1\n\n\\- line2\n\n\\+ line2changed\n\n" ≠ "" ∧
    (checkEditsItem
        (fun _ _ => ["--- \n", "+++ \n", "@@ -1,2 +1,2 @@\n", " line1", "-line2",
          "+line2changed"])
        ⟨100, some (some 50), some "tg\n\n----\nT\n\nline1\nline2\n\n----\nft",
          "line1\nline2changed", "02/03/2016 10:00:00", true, true⟩
        ⟨⟨some 5, 10, 240⟩, "line1\nline2", []⟩).state.content.updateInterval = 60 ∧
    (checkEditsItem
        (fun _ _ => ["--- \n", "+++ \n", "@@ -1,2 +1,2 @@\n", " line1", "-line2",
          "+line2changed"])
        ⟨100, some (some 50), some "tg\n\n----\nT\n\nline1\nline2\n\n----\nft",
          "line1\nline2changed", "02/03/2016 10:00:00", true, true⟩
        ⟨⟨some 5, 10, 240⟩, "line1\nline2", []⟩).action = StepAction.updated :=
  check_edits_concrete_scenario
    (fun _ _ => ["--- \n", "+++ \n", "@@ -1,2 +1,2 @@\n", " line1", "-line2",
      "+line2changed"]) rfl

/-! ## The reference resolver -/

/-- Outcome of the praw fetch inside `get_correct_reddit_object`: a
successful fetch, or the exception the praw call raised. -/
inductive FetchOutcome where
  | ok | keyError | redirect | typeError | apiError
deriving DecidableEq, Repr

/-- Result of `get_correct_reddit_object` as seen by its callers: a node
(submission or comment), the `None` return, or the raised
`CannotCopyError`. -/
inductive ResolveResult where
  | node | empty | cannotCopy
deriving DecidableEq, Repr

/-- `CopyKun.get_correct_reddit_object` (lines 92-118): raise
`CannotCopyError` when `link_regex` does not match the reference (line 97);
otherwise fetch, returning the comment or submission node on success;
`KeyError` (malformed response JSON) and `prawcore.exceptions.Redirect` are
re-raised as `CannotCopyError` (lines 113-115), while `TypeError` and
`praw.exceptions.APIException` are logged and become the `None` return
(lines 116-118).  `matched` abstracts whether `link_regex` matched. -/
def get_correct_reddit_object (matched : Bool) (fetch : FetchOutcome) : ResolveResult :=
  if matched then
    match fetch with
    | .ok => .node
    | .keyError => .cannotCopy
    | .redirect => .cannotCopy
    | .typeError => .empty
    | .apiError => .empty
  else .cannotCopy

/-- C5 counterexample: a reference that does match the expected path shape
but whose fetch hits a malformed response (praw `KeyError`).  The resolver
raises `CannotCopyError` instead of returning the empty result, so "fails
exactly when the reference does not match the path shape" and "every
transient fetch error returns an empty result" both fail here. -/
theorem resolver_error_counterexample :
    get_correct_reddit_object true FetchOutcome.keyError = ResolveResult.cannotCopy ∧
      ResolveResult.cannotCopy ≠ ResolveResult.empty := by
  decide

/-- C5 amended: the resolver fails with `CannotResolve` exactly when the
reference does not match the expected path shape or the fetch hits a
malformed response (`KeyError`) or a redirect; only type errors and API
errors from the remote API are logged and yield the empty no-node result. -/
theorem resolver_error_routing (matched : Bool) (fetch : FetchOutcome) :
    (get_correct_reddit_object matched fetch = ResolveResult.cannotCopy ↔
      (matched = false ∨ fetch = FetchOutcome.keyError ∨ fetch = FetchOutcome.redirect)) ∧
    (get_correct_reddit_object matched fetch = ResolveResult.empty ↔
      (matched = true ∧ (fetch = FetchOutcome.typeError ∨ fetch = FetchOutcome.apiError))) := by
  cases matched <;> cases fetch <;> decide

/-! ## The due-item query -/

/-- A `Post` row (src/database.py lines 36-37). -/
structure DbPost where
  id : String
deriving DecidableEq, Repr

/-- A `Content` row as stored (src/database.py lines 42-48); `post` is the
nullable foreign key holding the referenced `Post.id`. -/
structure DbContent where
  permalink : String
  created : Nat
  edited : Option Nat
  lastChecked : Nat
  updateInterval : Nat
  post : Option String
deriving DecidableEq, Repr

/-- The tables touched by the due-item query. -/
structure DbState where
  posts : List DbPost
  contents : List DbContent
deriving DecidableEq, Repr

/-- `Database.get_posts_to_check_edits` (src/database.py lines 122-125):
`Post.select().join(Content).where(now > Content.last_checked +
Content.update_interval)`.  The inner join keeps only posts with at least
one `Content` row referencing them that satisfies the due predicate (result
row multiplicity is immaterial for membership). -/
def get_posts_to_check_edits (db : DbState) (now : Nat) : List DbPost :=
  db.posts.filter fun p =>
    db.contents.any fun c =>
      c.post == some p.id && decide (now > c.lastChecked + c.updateInterval)

/-- C9: a `Post` row recorded only to prevent reprocessing — no `Content`
row references it, as created for ignored or unparseable sources in
`check_new_posts`/`check_new_comments` — is never returned by the due-item
query, whatever the clock says, so `check_edits` never processes it. -/
theorem ignored_posts_never_due (db : DbState) (p : DbPost) (now : Nat)
    (hignored : ∀ c ∈ db.contents, c.post ≠ some p.id) :
    p ∉ get_posts_to_check_edits db now := by
  intro hmem
  rcases List.mem_filter.mp hmem with ⟨-, hany⟩
  rcases List.any_eq_true.mp hany with ⟨c, hc, hcp⟩
  rw [Bool.and_eq_true] at hcp
  rcases hcp with ⟨hpost, -⟩
  exact hignored c hc (eq_of_beq hpost)

/-- Witness for `ignored_posts_never_due` on a two-post database where only
the other post owns a `Content` row. -/
theorem ignored_posts_never_due_witness :
    (⟨"ignored"⟩ : DbPost) ∉ get_posts_to_check_edits
      ⟨[⟨"ignored"⟩, ⟨"other"⟩], [⟨"http://x", 0, none, 0, 60, some "other"⟩]⟩ 1000 :=
  ignored_posts_never_due _ _ _ (by decide)

/-! ## Copying a post -/

/-- `TEXT_DIVIDER` (src/copykun.py line 45). -/
def TEXT_DIVIDER : String := "\n\n----\n"

/-- `MAX_COMMENT_LENGTH` (src/copykun.py line 43). -/
def MAX_COMMENT_LENGTH : Nat := 10000

/-- The database rows created by a successful `copy_post` (lines 270-284):
the tracked `Content` fields and `Reply.latest_content`. -/
structure CopyPostDb where
  content : ContentRec
  replyLatestContent : String
deriving DecidableEq, Repr

/-- `CopyKun.copy_post` (lines 244-288): assemble the reply text — the
chosen tagline, the divider, the title, then either the rendered content
(when it fits `MAX_COMMENT_LENGTH` minus the text so far, two dividers, two
newlines and the footer, line 255) or the quoted error message (line 258) —
then the divider and footer; post it, and on success create the
`Post`/`Content`/`Reply` rows with `Content.update_interval = 60` and
`Reply.latest_content` set to the rendered `content` (line 282).  `tagline`
is the already-chosen tagline (`""` when there are none), `replyOk` whether
`parent.reply` succeeded — on `APIException` nothing is stored.  Returns
the posted body and the created rows. -/
def copy_post (tagline footer error_msg title content : String)
    (linkEdited : Option Nat) (now : Nat) (replyOk : Bool) :
    Option (String × CopyPostDb) :=
  if 0 < content.length + title.length then
    if replyOk then
      some ((tagline ++ TEXT_DIVIDER ++ (if title = "" then "" else title ++ "\n\n")) ++
        (if content = "" then ""
          else if (content.length : Int) ≤ (MAX_COMMENT_LENGTH : Int) -
              (((tagline ++ TEXT_DIVIDER ++
                (if title = "" then "" else title ++ "\n\n")).length : Int) +
                2 * (TEXT_DIVIDER.length : Int) + 2 + (footer.length : Int))
            then content else "> " ++ error_msg) ++ TEXT_DIVIDER ++ footer,
        ⟨⟨linkEdited, now, 60⟩, content⟩)
    else none
  else none

/-- C10: when the rendered content exceeds the length budget, the posted
body carries the quoted error message in its content section, yet
`Reply.latest_content` stores the full rendered content — so the diff
baseline used by every future reconcile pass is the full fresh rendering,
not the posted error text. -/
theorem copy_post_stores_full_rendering
    (tagline footer error_msg title content : String) (linkEdited : Option Nat)
    (now : Nat)
    (hpos : 0 < content.length)
    (hover : ¬ ((content.length : Int) ≤ (MAX_COMMENT_LENGTH : Int) -
      (((tagline ++ TEXT_DIVIDER ++
        (if title = "" then "" else title ++ "\n\n")).length : Int) +
        2 * (TEXT_DIVIDER.length : Int) + 2 + (footer.length : Int)))) :
    copy_post tagline footer error_msg title content linkEdited now true =
      some ((tagline ++ TEXT_DIVIDER ++ (if title = "" then "" else title ++ "\n\n")) ++
        ("> " ++ error_msg) ++ TEXT_DIVIDER ++ footer,
        ⟨⟨linkEdited, now, 60⟩, content⟩) := by
  have hne : content ≠ "" := by
    intro h
    rw [h] at hpos
    exact absurd hpos (by decide)
  unfold copy_post
  rw [if_pos (show 0 < content.length + title.length by omega),
    if_pos (rfl : true = true), if_neg hne, if_neg hover]

/-- Witness for `copy_post_stores_full_rendering` with a 10000-character
rendering that cannot fit the budget. -/
theorem copy_post_stores_full_rendering_witness :
    copy_post "T" "F" "E" "ti" (String.mk (List.replicate 10000 'x')) none 5 true =
      some (("T" ++ TEXT_DIVIDER ++ (if "ti" = "" then "" else "ti" ++ "\n\n")) ++
        ("> " ++ "E") ++ TEXT_DIVIDER ++ "F",
        ⟨⟨none, 5, 60⟩, String.mk (List.replicate 10000 'x')⟩) := by
  have hlen : (String.mk (List.replicate 10000 'x')).length = 10000 := by
    show (List.replicate 10000 'x').length = 10000
    exact List.length_replicate 10000 'x'
  apply copy_post_stores_full_rendering
  · rw [hlen]
    omega
  · rw [hlen]
    decide

/-! ## The chain builder -/

/-- A fetched comment node as used by `get_comment_chain`: id, the typed
parent reference (`"t1_..."`/`"t3_..."`), the author account name (`none`
when deleted), and the body (`none` or `""` count as deleted). -/
structure RComment where
  id : String
  parentId : String
  author : Option String
  body : Option String
deriving DecidableEq, Repr

/-- The submission owning the comment tree. -/
structure RSubmission where
  id : String
  author : Option String
deriving DecidableEq, Repr

/-- Python `s * n` for strings. -/
def pyRepeat (s : String) (n : Nat) : String := String.join (List.replicate n s)

/-- Python truthiness of an optional string (`None` and `""` are falsy). -/
def pyTruthy (b : Option String) : Bool :=
  match b with
  | some s => !(s == "")
  | none => false

/-- `op_name` (line 197): the submission author or `"[deleted]"`. -/
def opName (sub : RSubmission) : String :=
  match sub.author with
  | some a => a
  | none => "[deleted]"

/-- Lines 222-237 of `get_comment_chain`: one rendered block at a nesting
level — the author line (`"/u/"` plus name, `" (OP)"` appended when the
name equals `op_name`, `"[deleted]"` when the account is gone) quoted with
`"> " * level`, then each body line prefixed by `">" * level`, or a quoted
`"[deleted]"` line when the body is falsy. -/
def renderComment (op : String) (level : Nat) (c : RComment) : String :=
  pyRepeat "> " level ++
    (match c.author with
      | some a => "/u/" ++ a ++ (if a = op then " (OP)" else "")
      | none => "[deleted]") ++ ":\n\n" ++
    (if pyTruthy c.body then
      String.join ((linesOf (c.body.getD "")).map fun para =>
        pyRepeat ">" level ++ para ++ "\n")
    else pyRepeat "> " level ++ "[deleted]\n")

/-- Lines 219-221 and 238: render the collected path in reversed
(root-to-target) order, with the nesting level starting at 2 and
incremented per block. -/
def renderChain (op : String) : Nat → List RComment → String
  | _, [] => ""
  | level, c :: rest => renderComment op level c ++ renderChain op (level + 1) rest

/-- Lines 202-218: walk upward from the target via `parent_id[3:]` through
the id-indexed lookup, collecting the path until the submission id is
reached.  On a missing id, the first miss swaps in the lookup obtained by
the deep refetch (`replace_more_comments`); later misses point-fetch the
individual id (`get_correct_reddit_object`, a failure of which propagates)
and insert it keyed by the fetched node's id.  `fuel` bounds the `while`
loop; `none` models non-termination or a propagated fetch failure. -/
def chainWalk (subId : String) (refetch pf : String → Option RComment) :
    Nat → (String → Option RComment) → Bool → String → Option (List RComment)
  | 0, _, _, _ => none
  | fuel + 1, m, fetchedMore, cur =>
    if cur = subId then some []
    else
      match m cur with
      | some c =>
        (chainWalk subId refetch pf fuel m fetchedMore
          (String.mk (c.parentId.toList.drop 3))).map (c :: ·)
      | none =>
        if fetchedMore then
          match pf cur with
          | some c =>
            chainWalk subId refetch pf fuel
              (fun x => if x = c.id then some c else m x) fetchedMore cur
          | none => none
        else chainWalk subId refetch pf fuel refetch true cur

/-- `CopyKun.get_comment_chain` (lines 195-239): walk the ancestor path
from the target, then render it reversed starting at nesting level 2. -/
def get_comment_chain (sub : RSubmission) (m refetch pf : String → Option RComment)
    (fuel : Nat) (targetId : String) : Option String :=
  (chainWalk sub.id refetch pf fuel m false targetId).map fun l =>
    renderChain (opName sub) 2 l.reverse

/-- Author label as the spec words it: the author account (`"[deleted]"`
when the account no longer exists), the document's author labeled with
`" (OP)"`. -/
def specAuthorLabel (op : String) : Option String → String
  | none => "[deleted]"
  | some a => "/u/" ++ a ++ (if a = op then " (OP)" else "")

/-- Body section as the spec words it: each body line individually
quote-prefixed at the block's nesting level, `"[deleted]"` when the body is
absent. -/
def specBodySection (level : Nat) : Option String → String
  | none => pyRepeat "> " level ++ "[deleted]\n"
  | some b =>
    if b = "" then pyRepeat "> " level ++ "[deleted]\n"
    else String.join ((linesOf b).map fun line => pyRepeat ">" level ++ line ++ "\n")

/-- One attributed block as described by the spec. -/
def specBlock (op : String) (level : Nat) (c : RComment) : String :=
  pyRepeat "> " level ++ specAuthorLabel op c.author ++ ":\n\n" ++
    specBodySection level c.body

/-- The block sequence the spec describes: one block per chain node in
root-to-target order, nesting levels strictly increasing by one per
block. -/
def specBlocks (op : String) : Nat → List RComment → List String
  | _, [] => []
  | level, c :: rest => specBlock op level c :: specBlocks op (level + 1) rest

def joinBlocks : List String → String
  | [] => ""
  | b :: r => b ++ joinBlocks r

theorem renderComment_eq_specBlock (op : String) (level : Nat) (c : RComment) :
    renderComment op level c = specBlock op level c := by
  rcases c with ⟨id, pid, author, body⟩
  rcases author with _ | a
  · rcases body with _ | b
    · rfl
    · by_cases hb : b = ""
      · subst hb
        rfl
      · simp [renderComment, specBlock, specAuthorLabel, specBodySection, pyTruthy, hb]
  · rcases body with _ | b
    · rfl
    · by_cases hb : b = ""
      · subst hb
        rfl
      · simp [renderComment, specBlock, specAuthorLabel, specBodySection, pyTruthy, hb]

theorem renderChain_eq_joinBlocks (op : String) :
    ∀ (l : List RComment) (level : Nat),
      renderChain op level l = joinBlocks (specBlocks op level l) := by
  intro l
  induction l with
  | nil => intro level; rfl
  | cons c rest ih =>
    intro level
    simp only [renderChain, specBlocks, joinBlocks, renderComment_eq_specBlock, ih]

theorem specBlocks_length (op : String) :
    ∀ (l : List RComment) (level : Nat), (specBlocks op level l).length = l.length := by
  intro l
  induction l with
  | nil => intro level; rfl
  | cons c rest ih => intro level; simp [specBlocks, ih]

/-- The id the walk starts from: the head of the reversed chain, or the
submission id for an empty chain. -/
def startOf (subId : String) : List RComment → String
  | [] => subId
  | c :: _ => c.id

/-- Well-linked reversed chain: each node's parent reference (type prefix
stripped) names the next node, the last one naming the submission. -/
def parentsMatch (subId : String) : List RComment → Prop
  | [] => True
  | c :: rest =>
    String.mk (c.parentId.toList.drop 3) = startOf subId rest ∧ parentsMatch subId rest

/-- When every node of the (reversed, target-first) chain is present in the
initial lookup, the walk terminates without any fallback fetch and returns
exactly that chain. -/
theorem chainWalk_complete (subId : String) (refetch pf : String → Option RComment) :
    ∀ (rchain : List RComment) (fuel : Nat) (m : String → Option RComment),
      rchain.length < fuel →
      (∀ c ∈ rchain, m c.id = some c) →
      (∀ c ∈ rchain, c.id ≠ subId) →
      parentsMatch subId rchain →
      chainWalk subId refetch pf fuel m false (startOf subId rchain) = some rchain := by
  intro rchain
  induction rchain with
  | nil =>
    intro fuel m hfuel _ _ _
    obtain ⟨f, rfl⟩ : ∃ f, fuel = f + 1 := ⟨fuel - 1, by omega⟩
    simp [chainWalk, startOf]
  | cons c rest ih =>
    intro fuel m hfuel hm hne hpm
    obtain ⟨f, rfl⟩ : ∃ f, fuel = f + 1 := ⟨fuel - 1, by omega⟩
    obtain ⟨hpar, hpm2⟩ := hpm
    have hcid : m c.id = some c := hm c (by simp)
    have hcne : c.id ≠ subId := hne c (by simp)
    have hrest : chainWalk subId refetch pf f m false (startOf subId rest) = some rest := by
      apply ih f m _ (fun x hx => hm x (by simp [hx])) (fun x hx => hne x (by simp [hx])) hpm2
      simp only [List.length_cons] at hfuel
      omega
    show chainWalk subId refetch pf (f + 1) m false c.id = some (c :: rest)
    simp only [chainWalk, if_neg hcne, hcid]
    rw [hpar, hrest]
    rfl

/-- C6: for a chain of depth N (root-to-target, all nodes present in the
lookup, none equal to the submission), `get_comment_chain` renders exactly
the N spec-described attributed blocks in root-to-target order, with
nesting levels 2, 3, ..., N+1 strictly increasing by one per block: each
block labels the author (`"[deleted]"` for a gone account, `" (OP)"` for
the document author) and quote-prefixes every body line at the block's
level (`"[deleted]"` for an absent body). -/
theorem get_comment_chain_blocks (sub : RSubmission)
    (m refetch pf : String → Option RComment) (chain : List RComment)
    (hm : ∀ c ∈ chain, m c.id = some c)
    (hne : ∀ c ∈ chain, c.id ≠ sub.id)
    (hpm : parentsMatch sub.id chain.reverse) :
    get_comment_chain sub m refetch pf (chain.length + 1) (startOf sub.id chain.reverse) =
      some (joinBlocks (specBlocks (opName sub) 2 chain)) ∧
    (specBlocks (opName sub) 2 chain).length = chain.length := by
  constructor
  · unfold get_comment_chain
    rw [chainWalk_complete sub.id refetch pf chain.reverse (chain.length + 1) m
      (by simp) (fun c hc => hm c (List.mem_reverse.mp hc))
      (fun c hc => hne c (List.mem_reverse.mp hc)) hpm]
    show some (renderChain (opName sub) 2 chain.reverse.reverse) =
      some (joinBlocks (specBlocks (opName sub) 2 chain))
    rw [List.reverse_reverse, renderChain_eq_joinBlocks]
  · exact specBlocks_length (opName sub) chain 2

/-- Witness for `get_comment_chain_blocks`: a depth-2 chain whose root
child is the submission author and whose target has a deleted author and
body. -/
theorem get_comment_chain_blocks_witness :
    get_comment_chain ⟨"s1", some "alice"⟩
        (fun x => if x = "c1" then some ⟨"c1", "t3_s1", some "alice", some "hello\nworld"⟩
          else if x = "c2" then some ⟨"c2", "t1_c1", none, none⟩ else none)
        (fun _ => none) (fun _ => none)
        (([⟨"c1", "t3_s1", some "alice", some "hello\nworld"⟩,
           ⟨"c2", "t1_c1", none, none⟩] : List RComment).length + 1)
        (startOf "s1"
          ([⟨"c1", "t3_s1", some "alice", some "hello\nworld"⟩,
            ⟨"c2", "t1_c1", none, none⟩] : List RComment).reverse) =
      some (joinBlocks (specBlocks (opName ⟨"s1", some "alice"⟩) 2
        [⟨"c1", "t3_s1", some "alice", some "hello\nworld"⟩,
         ⟨"c2", "t1_c1", none, none⟩])) ∧
    (specBlocks (opName ⟨"s1", some "alice"⟩) 2
      [⟨"c1", "t3_s1", some "alice", some "hello\nworld"⟩,
       ⟨"c2", "t1_c1", none, none⟩]).length =
      ([⟨"c1", "t3_s1", some "alice", some "hello\nworld"⟩,
        ⟨"c2", "t1_c1", none, none⟩] : List RComment).length :=
  get_comment_chain_blocks _ _ _ _ _ (by decide) (by decide)
    ⟨by decide, by decide, trivial⟩

end CopyKun
